import Mathlib

/-!
Shallow embedding of the ngx-quill synchronization core: the
`QuillEditorBase` directive (editable binder), the `QuillViewComponent`
(read-only binder) and the format-adapter functions (`valueSetter`,
`valueGetter`, `validate`, `writeValue`, `setDisabledState`,
`selectionChangeHandler`, `_addQuillEventListeners`).

JavaScript values are modelled by `JSVal`; the external collaborators of
the code (the platform's `JSON.parse`/`JSON.stringify`, the engine's
`clipboard.convert` HTML importer, and the DOM sanitizer) are abstract
functions gathered in a `QuillEnv`.  Engine calls performed by a method
are returned as an explicit list of `EngineOp` values, in call order.
-/

namespace NgxQuill

/-- Model of the JavaScript values flowing through the binder. -/
inductive JSVal where
  | null
  | undefined
  | bool (b : Bool)
  | num (n : Int)
  | str (s : String)
  | arr (elems : List JSVal)
  | obj (fields : List (String × JSVal))

/-- JavaScript truthiness of a value (`if (v)`). -/
def jsTruthy : JSVal → Bool
  | JSVal.null => false
  | JSVal.undefined => false
  | JSVal.bool b => b
  | JSVal.num n => n != 0
  | JSVal.str s => s != ""
  | JSVal.arr _ => true
  | JSVal.obj _ => true

/-- Strict equality with the `null` literal (`v === null`). -/
def JSVal.isNull : JSVal → Bool
  | JSVal.null => true
  | _ => false

/-- The four external value representations of the `format` input. -/
inductive Format where
  | object
  | html
  | text
  | json
deriving DecidableEq

/-- Modelled from the spec: the helper `getFormat` (file `helpers.ts`) is
not under the sources provided; per the spec the active format tag is
resolved with precedence component-level override, then service-level
default, then `html`. -/
def getFormat (format : Option Format) (configFormat : Option Format) : Format :=
  match format with
  | some f => f
  | none =>
    match configFormat with
    | some f => f
    | none => Format.html

/-- The engine calls a binder method can perform, in call order.  The
`Option String` argument of the write calls is the engine `source` flag;
`none` is a call without an explicit source (the engine default). -/
inductive EngineOp where
  | setText (content : JSVal) (source : Option String)
  | setContents (ops : JSVal) (source : Option String)
  | historyClear
  | disable
  | enable
  | setAttrDisabled
  | removeAttrDisabled

/-- External collaborators used by the binders, treated as opaque
functions: the platform JSON functions (`jsonParse v = none` models
`JSON.parse` throwing, `jsonStringify v = none` models it returning
`undefined`), the engine's `clipboard.convert` HTML importer and the DOM
sanitizer. -/
structure QuillEnv where
  jsonParse : JSVal → Option JSVal
  jsonStringify : JSVal → Option String
  clipboardConvert : JSVal → JSVal
  sanitizeHtml : JSVal → JSVal

/-- The inputs read by the format adapter: the component `format` and
`sanitize` inputs and their service-config fallbacks.  `configSanitize`
already collapses `this._service.config.sanitize || false`. -/
structure FormatInputs where
  format : Option Format
  configFormat : Option Format
  sanitize : Option Bool
  configSanitize : Bool

/-- Sanitize-flag resolution of `valueSetter`: the explicit boolean input
when it is `true` or `false`, else the service default
(`[true, false].includes(this.sanitize()) ? this.sanitize() :
(this._service.config.sanitize || false)`). -/
def resolvedSanitize (inp : FormatInputs) : Bool :=
  match inp.sanitize with
  | some b => b
  | none => inp.configSanitize

/-- `QuillEditorBase.valueSetter` (the default `valueSetter` input): for
`html`, optionally sanitizes then converts through the clipboard
importer; for `json`, `JSON.parse` with fallback to a single-insert
operation list carrying the raw value; otherwise passes the value
through. -/
def quillEditorValueSetter (env : QuillEnv) (inp : FormatInputs) (value : JSVal) : JSVal :=
  match getFormat inp.format inp.configFormat with
  | Format.html =>
    let v := if resolvedSanitize inp then env.sanitizeHtml value else value
    env.clipboardConvert v
  | Format.json =>
    match env.jsonParse value with
    | some parsed => parsed
    | none => JSVal.arr [JSVal.obj [("insert", value)]]
  | _ => value

/-- The component state read and written by `writeValue`:
`this._content`, presence of `this._quillEditor`, and the editor's
current native content (`getContents()`), which `writeValue` only
reads. -/
structure EditorWriteState where
  content : JSVal
  hasEditor : Bool
  editorContents : JSVal

/-- The editor-component inputs read by `writeValue` beyond the format
adapter ones. -/
structure WriteInputs where
  fmt : FormatInputs
  filterNull : Bool
  compareValues : Bool

/-- `QuillEditorBase.writeValue`: ignore a `null` under `filterNull`;
cache the value in `_content`; stop if no instance exists; else run the
value through `valueSetter`, optionally skip when `compareValues` finds
`JSON.stringify`-equal content, then write a truthy value with the
native setter matching the format and clear to empty text otherwise. -/
def writeValue (env : QuillEnv) (winp : WriteInputs) (st : EditorWriteState)
    (currentValue : JSVal) : EditorWriteState × List EngineOp :=
  if winp.filterNull && currentValue.isNull then
    (st, [])
  else
    let st1 := { st with content := currentValue }
    if st1.hasEditor = false then
      (st1, [])
    else
      let format := getFormat winp.fmt.format winp.fmt.configFormat
      let newValue := quillEditorValueSetter env winp.fmt currentValue
      if winp.compareValues && (env.jsonStringify st1.editorContents == env.jsonStringify newValue) then
        (st1, [])
      else if jsTruthy currentValue then
        if format = Format.text then
          (st1, [EngineOp.setText currentValue none])
        else
          (st1, [EngineOp.setContents newValue none])
      else
        (st1, [EngineOp.setText (JSVal.str "") none])

/-- The buffered-value flush performed at the `Ready` transition
(constructor, after the instance is created): when `this._content` is
truthy, a single silent write with the format-appropriate setter,
followed by clearing the history module. -/
def flushBufferedContent (env : QuillEnv) (inp : FormatInputs) (content : JSVal) :
    List EngineOp :=
  if jsTruthy content then
    (if getFormat inp.format inp.configFormat = Format.text then
      [EngineOp.setText content (some "silent")]
    else
      [EngineOp.setContents (quillEditorValueSetter env inp content) (some "silent")])
    ++ [EngineOp.historyClear]
  else
    []

/-- JavaScript whitespace recognised by `String.prototype.trim` on the
ASCII range (the inputs Quill's `getText` produces). -/
def isJsSpace (c : Char) : Bool :=
  c = ' ' || c = '\t' || c = '\n' || c = '\r' || c = '\x0b' || c = '\x0c'

/-- `text.trim()`: strip leading and trailing whitespace. -/
def jsTrim (s : String) : String :=
  String.mk (((s.data.dropWhile isJsSpace).reverse.dropWhile isJsSpace).reverse)

/-- `JSON.stringify`-independent `toString()` of the values Quill stores
in an operation's `insert` field (strings, or embed objects). -/
def jsToString : JSVal → String
  | JSVal.null => "null"
  | JSVal.undefined => "undefined"
  | JSVal.bool b => if b then "true" else "false"
  | JSVal.num n => toString n
  | JSVal.str s => s
  | JSVal.arr _ => ""
  | JSVal.obj _ => "[object Object]"

/-- One operation of the native content (`getContents().ops`); `validate`
only reads the optional `insert` field (`insert?.toString()`). -/
structure DeltaOp where
  insert : Option JSVal

/-- The `onlyEmptyOperation` computation of `validate`: the operation
list has exactly one element and its inserted value stringifies to an
empty string or a single newline. -/
def onlyEmptyOperation (ops : List DeltaOp) : Bool :=
  match ops with
  | [op] =>
    match op.insert with
    | some v => (jsToString v == "\n") || (jsToString v == "")
    | none => false
  | _ => false

/-- The inputs read by `validate`; `minLength`/`maxLength` are JS
numbers or `undefined`. -/
structure ValidateInputs where
  trimOnValidation : Bool
  minLength : Option Int
  maxLength : Option Int
  required : Bool

/-- The effective text length computed by `validate`:
`this.trimOnValidation() ? text.trim().length : (text.length === 1 &&
text.trim().length === 0 ? 0 : text.length - 1)` (as a JS number, so the
raw length of an empty text yields `-1`). -/
def computedTextLength (trimOnValidation : Bool) (text : String) : Int :=
  if trimOnValidation then
    ((jsTrim text).length : Int)
  else if text.length = 1 ∧ (jsTrim text).length = 0 then
    0
  else
    (text.length : Int) - 1

/-- A `minLengthError`/`maxLengthError` payload: the given length and
the configured bound. -/
structure LengthError where
  given : Int
  bound : Int
deriving DecidableEq

/-- The error object built by `validate`; `requiredError = true` models
the presence of the `requiredError` field with `empty` set. -/
structure ValidationErrors where
  minLengthError : Option LengthError
  maxLengthError : Option LengthError
  requiredError : Bool
deriving DecidableEq

/-- `QuillEditorBase.validate` on the state it reads: instance presence,
the native text (`getText()`) and the native operation list
(`getContents().ops`).  Returns `none` (JS `null`, meaning valid) when
no instance exists or no error was recorded. -/
def validate (inp : ValidateInputs) (hasEditor : Bool) (text : String)
    (ops : List DeltaOp) : Option ValidationErrors :=
  if hasEditor = false then
    none
  else
    let textLength := computedTextLength inp.trimOnValidation text
    let onlyEmpty := onlyEmptyOperation ops
    let minErr : Option LengthError :=
      match inp.minLength with
      | some m => if m ≠ 0 ∧ textLength ≠ 0 ∧ textLength < m then some ⟨textLength, m⟩ else none
      | none => none
    let maxErr : Option LengthError :=
      match inp.maxLength with
      | some m => if m ≠ 0 ∧ textLength > m then some ⟨textLength, m⟩ else none
      | none => none
    let reqErr : Bool := inp.required && (textLength == 0) && onlyEmpty
    if minErr = none ∧ maxErr = none ∧ reqErr = false then
      none
    else
      some ⟨minErr, maxErr, reqErr⟩

/-- The state read and written by `setDisabledState`: instance presence,
the native enabled state, the host-level `disabled` attribute, and the
stored `this._disabled` flag. -/
structure DisabledState where
  hasEditor : Bool
  editorEnabled : Bool
  attrDisabled : Bool
  storedDisabled : Bool
deriving DecidableEq

/-- `QuillEditorBase.setDisabledState`: store the requested state; when
an instance exists, disabling calls the native `disable()` and sets the
host `disabled` attribute, enabling removes the attribute and calls the
native `enable()` unless the `readOnly` input is truthy. -/
def setDisabledState (readOnly : Bool) (st : DisabledState) (isDisabled : Bool) :
    DisabledState × List EngineOp :=
  let st1 := { st with storedDisabled := isDisabled }
  if st1.hasEditor = false then
    (st1, [])
  else if isDisabled then
    ({ st1 with editorEnabled := false, attrDisabled := true },
     [EngineOp.disable, EngineOp.setAttrDisabled])
  else if readOnly = false then
    ({ st1 with editorEnabled := true, attrDisabled := false },
     [EngineOp.enable, EngineOp.removeAttrDisabled])
  else
    ({ st1 with attrDisabled := false },
     [EngineOp.removeAttrDisabled])

/-- A selection range (`index`/`length`); handlers only compare ranges
against `null`, modelled by `Option Range`. -/
structure Range where
  index : Nat
  length : Nat
deriving DecidableEq

/-- The `trackChanges` option values. -/
inductive TrackChanges where
  | user
  | all
deriving DecidableEq

/-- The inputs read by `selectionChangeHandler`: the `trackChanges`
input and its service-config fallback
(`this.trackChanges() || this._service.config.trackChanges`). -/
structure SelInputs where
  trackChanges : Option TrackChanges
  configTrackChanges : Option TrackChanges

/-- Resolution of the track-changes mode with service fallback. -/
def resolvedTrackChanges (inp : SelInputs) : Option TrackChanges :=
  match inp.trackChanges with
  | some t => some t
  | none => inp.configTrackChanges

/-- Which of the binder's selection-related outputs are observed
(`_onBlur$.observed` etc.). -/
structure SelObservers where
  blurObserved : Bool
  focusObserved : Bool
  selectionObserved : Bool

/-- The `shouldTriggerOnModelTouched` computation: the new range is
`null`, a touched callback is registered, and the source is `user` or
the resolved track-changes mode is `all`. -/
def shouldTriggerTouch (inp : SelInputs) (hasOnModelTouched : Bool)
    (range : Option Range) (source : String) : Bool :=
  range.isNone && hasOnModelTouched &&
    (source == "user" || resolvedTrackChanges inp == some TrackChanges.all)

/-- The emissions performed by one run of `selectionChangeHandler`. -/
structure SelectionEmits where
  blur : Bool
  focus : Bool
  selectionChanged : Bool
  modelTouched : Bool
deriving DecidableEq

/-- `QuillEditorBase.selectionChangeHandler`: early return when no
listener is attached and no touched callback must fire; otherwise emit
blur when the new range is `null`, else focus when the old range was
`null`, always emit the selection-changed payload, and invoke the
touched callback when `shouldTriggerOnModelTouched` held. -/
def selectionChangeHandler (inp : SelInputs) (obs : SelObservers)
    (hasOnModelTouched : Bool) (range oldRange : Option Range) (source : String) :
    SelectionEmits :=
  let shouldTouch := shouldTriggerTouch inp hasOnModelTouched range source
  if obs.blurObserved = false ∧ obs.focusObserved = false ∧
      obs.selectionObserved = false ∧ shouldTouch = false then
    ⟨false, false, false, false⟩
  else
    { blur := range.isNone
      focus := range.isSome && oldRange.isNone
      selectionChanged := true
      modelTouched := shouldTouch }

/-- The three engine-native events the binder subscribes to. -/
inductive ListenerEvent where
  | selectionChange
  | textChange
  | editorChange
deriving DecidableEq

/-- One active subscription: its event and the debounce interval applied
to its stream (`none` when the stream is not piped through
`debounceTime`). -/
structure ListenerSub where
  event : ListenerEvent
  debounce : Option Nat
deriving DecidableEq

/-- `QuillEditorBase._addQuillEventListeners` subscription set: the
selection-change stream is never debounced; the text-change and
editor-change streams are debounced exactly when the `debounceTime`
input is a number (including `0`). -/
def addQuillEventListeners (debounce : Option Nat) : List ListenerSub :=
  [⟨ListenerEvent.selectionChange, none⟩,
   ⟨ListenerEvent.textChange, debounce⟩,
   ⟨ListenerEvent.editorChange, debounce⟩]

/-- Actions on the events-subscription slot: `_dispose` of the current
set, or installation of a fresh set. -/
inductive SubAction where
  | disposeSet
  | createSet (subs : List ListenerSub)
deriving DecidableEq

/-- `_addQuillEventListeners` as a step on the `_eventsSubscription`
slot: dispose the current set when one exists, then install a fresh
three-subscription set. -/
def addListenersStep (debounce : Option Nat) (cur : Option (List ListenerSub)) :
    Option (List ListenerSub) × List SubAction :=
  let disposal := if cur.isSome then [SubAction.disposeSet] else []
  let subs := addQuillEventListeners debounce
  (some subs, disposal ++ [SubAction.createSet subs])

/-- Truthiness of the JS `debounceTime` input (`number | undefined`):
`undefined` and `0` are falsy. -/
def debounceTruthy : Option Nat → Bool
  | some n => n != 0
  | none => false

/-- The `toObservable(this.debounceTime)` subscription in the
constructor: return untouched when no instance exists; rebuild the
listener set only when the new debounce value is truthy. -/
def onDebounceTimeChange (hasEditor : Bool) (debounce : Option Nat)
    (cur : Option (List ListenerSub)) : Option (List ListenerSub) × List SubAction :=
  if hasEditor = false then
    (cur, [])
  else if debounceTruthy debounce then
    addListenersStep debounce cur
  else
    (cur, [])

/-- `QuillViewComponent.valueSetter`: writes the encoded value to the
instance — `setText` for `text`, otherwise `setContents` of the value
converted per format (clipboard import for `html` with optional
sanitization, `JSON.parse` with single-insert fallback for `json`,
pass-through for `object`). -/
def quillViewValueSetter (env : QuillEnv) (inp : FormatInputs) (value : JSVal) :
    List EngineOp :=
  match getFormat inp.format inp.configFormat with
  | Format.text => [EngineOp.setText value none]
  | Format.html =>
    let v := if resolvedSanitize inp then env.sanitizeHtml value else value
    [EngineOp.setContents (env.clipboardConvert v) none]
  | Format.json =>
    match env.jsonParse value with
    | some parsed => [EngineOp.setContents parsed none]
    | none => [EngineOp.setContents (JSVal.arr [JSVal.obj [("insert", value)]]) none]
  | Format.object => [EngineOp.setContents value none]

/-- The `toObservable(this.content)` subscription of the view component:
ignore while no instance exists; apply `valueSetter` only to a truthy
content value. -/
def viewContentChange (env : QuillEnv) (inp : FormatInputs) (hasEditor : Bool)
    (content : JSVal) : List EngineOp :=
  if hasEditor = false then
    []
  else if jsTruthy content then
    quillViewValueSetter env inp content
  else
    []

/-- The initial-content application at view-instance creation
(`if (this.content()) this.valueSetter(this.quillEditor, this.content())`). -/
def viewApplyInitialContent (env : QuillEnv) (inp : FormatInputs) (content : JSVal) :
    List EngineOp :=
  if jsTruthy content then
    quillViewValueSetter env inp content
  else
    []

/-- Whether a validation result carries the `requiredError` field. -/
def hasRequiredError : Option ValidationErrors → Bool
  | some e => e.requiredError
  | none => false

/-- The `minLengthError` field of a validation result (`none` when the
result is valid). -/
def minLengthErrorOf : Option ValidationErrors → Option LengthError
  | some e => e.minLengthError
  | none => none

/-- The `maxLengthError` field of a validation result (`none` when the
result is valid). -/
def maxLengthErrorOf : Option ValidationErrors → Option LengthError
  | some e => e.maxLengthError
  | none => none

/-- Refinement comparison, following the spec's words: the effective
text length is the trimmed length when trim-on-validation is set,
otherwise the raw length minus one, except that text consisting of
exactly one newline-only character counts as length 0. -/
def specEffectiveLength (trimOnValidation : Bool) (text : String) : Int :=
  if trimOnValidation then
    ((jsTrim text).length : Int)
  else if text = "\n" then
    0
  else
    (text.length : Int) - 1

/-- The minimum-length error derived from an effective length: present
when a nonzero minimum is configured, the length is nonzero-falsy, and
the length is below the minimum. -/
def specMinLengthError (minLength : Option Int) (len : Int) : Option LengthError :=
  match minLength with
  | some m => if m ≠ 0 ∧ len ≠ 0 ∧ len < m then some ⟨len, m⟩ else none
  | none => none

/-- The maximum-length error derived from an effective length: present
when a nonzero maximum is configured and the length exceeds it. -/
def specMaxLengthError (maxLength : Option Int) (len : Int) : Option LengthError :=
  match maxLength with
  | some m => if m ≠ 0 ∧ len > m then some ⟨len, m⟩ else none
  | none => none

/-- A concrete environment used to evaluate the embedding on concrete
inputs: `JSON.parse` always throws, `JSON.stringify` returns
`undefined`, the importer and sanitizer are identities. -/
def testEnv : QuillEnv where
  jsonParse := fun _ => none
  jsonStringify := fun _ => none
  clipboardConvert := fun v => v
  sanitizeHtml := fun v => v

/-- A concrete environment whose `JSON.parse` succeeds on every string,
returning a one-field object wrapping it. -/
def parsingEnv : QuillEnv where
  jsonParse := fun v => some (JSVal.obj [("parsed", v)])
  jsonStringify := fun _ => none
  clipboardConvert := fun v => v
  sanitizeHtml := fun v => v

/-- Claim C8: with the filter-null option enabled, `writeValue` applied
to the absence sentinel `null` is ignored entirely — the whole component
state (cached content, engine-content view, instance presence) is
returned unchanged and no engine operation is performed. -/
theorem writeValue_filterNull_null_ignored (env : QuillEnv) (winp : WriteInputs)
    (st : EditorWriteState) (h : winp.filterNull = true) :
    writeValue env winp st JSVal.null = (st, []) := by
  simp [writeValue, h, JSVal.isNull]

/-- Witness for C8 at a concrete state: filter-null on, prior content
`"old"`, existing instance; writing `null` changes nothing. -/
theorem writeValue_filterNull_null_ignored_witness :
    writeValue testEnv
      { fmt := ⟨none, none, none, false⟩, filterNull := true, compareValues := false }
      { content := JSVal.str "old", hasEditor := true, editorContents := JSVal.str "old" }
      JSVal.null =
    ({ content := JSVal.str "old", hasEditor := true, editorContents := JSVal.str "old" }, []) :=
  writeValue_filterNull_null_ignored testEnv
    { fmt := ⟨none, none, none, false⟩, filterNull := true, compareValues := false }
    { content := JSVal.str "old", hasEditor := true, editorContents := JSVal.str "old" }
    rfl

/-- Claim C2: a falsy value written while the instance exists, with
filter-null disabled and the write not skipped by the compare-values
option, performs exactly one engine call, `setText` of the empty
string, whatever the prior editor content and whatever the configured
format. -/
theorem writeValue_falsy_clears_text (env : QuillEnv) (winp : WriteInputs)
    (st : EditorWriteState) (value : JSVal)
    (hfn : winp.filterNull = false)
    (hed : st.hasEditor = true)
    (hfalsy : jsTruthy value = false)
    (hskip : (winp.compareValues &&
      (env.jsonStringify st.editorContents ==
        env.jsonStringify (quillEditorValueSetter env winp.fmt value))) = false) :
    (writeValue env winp st value).2 = [EngineOp.setText (JSVal.str "") none] := by
  simp only [writeValue, hfn, Bool.false_and, Bool.false_eq_true, if_false, hed]
  simp [hskip, hfalsy]

/-- Witness for C2: empty-string value, html format, instance present
with nonempty prior content; the only engine call is `setText` of the
empty string. -/
theorem writeValue_falsy_clears_text_witness :
    (writeValue testEnv
      { fmt := ⟨some Format.html, none, none, false⟩, filterNull := false, compareValues := false }
      { content := JSVal.str "prior", hasEditor := true, editorContents := JSVal.str "prior" }
      (JSVal.str "")).2 = [EngineOp.setText (JSVal.str "") none] :=
  writeValue_falsy_clears_text testEnv
    { fmt := ⟨some Format.html, none, none, false⟩, filterNull := false, compareValues := false }
    { content := JSVal.str "prior", hasEditor := true, editorContents := JSVal.str "prior" }
    (JSVal.str "") rfl rfl rfl rfl

/-- Claim C3: under a resolved `json` format, both the editable
binder's `valueSetter` and the view component's `valueSetter` return
the `JSON.parse` result of a string input when parsing succeeds, and
when parsing throws they fall back to a single-operation list inserting
the raw string — no error escapes to the caller. -/
theorem valueSetter_json_parse_and_fallback (env : QuillEnv)
    (einp vinp : FormatInputs) (s : String)
    (he : getFormat einp.format einp.configFormat = Format.json)
    (hv : getFormat vinp.format vinp.configFormat = Format.json) :
    (∀ parsed, env.jsonParse (JSVal.str s) = some parsed →
      quillEditorValueSetter env einp (JSVal.str s) = parsed ∧
      quillViewValueSetter env vinp (JSVal.str s) = [EngineOp.setContents parsed none]) ∧
    (env.jsonParse (JSVal.str s) = none →
      quillEditorValueSetter env einp (JSVal.str s) =
        JSVal.arr [JSVal.obj [("insert", JSVal.str s)]] ∧
      quillViewValueSetter env vinp (JSVal.str s) =
        [EngineOp.setContents (JSVal.arr [JSVal.obj [("insert", JSVal.str s)]]) none]) := by
  unfold quillEditorValueSetter quillViewValueSetter
  rw [he, hv]
  constructor
  · intro parsed hp
    rw [hp]
    exact ⟨rfl, rfl⟩
  · intro hp
    rw [hp]
    exact ⟨rfl, rfl⟩

/-- Witness for C3: a parse-throwing environment on the string
`"not json"` yields the literal-insert fallback in both binders, and a
parse-succeeding environment yields the parsed value. -/
theorem valueSetter_json_parse_and_fallback_witness :
    (quillEditorValueSetter testEnv ⟨some Format.json, none, none, false⟩ (JSVal.str "not json") =
      JSVal.arr [JSVal.obj [("insert", JSVal.str "not json")]]) ∧
    (quillViewValueSetter testEnv ⟨some Format.json, none, none, false⟩ (JSVal.str "not json") =
      [EngineOp.setContents (JSVal.arr [JSVal.obj [("insert", JSVal.str "not json")]]) none]) ∧
    (quillEditorValueSetter parsingEnv ⟨some Format.json, none, none, false⟩ (JSVal.str "x") =
      JSVal.obj [("parsed", JSVal.str "x")]) := by
  refine ⟨?_, ?_, ?_⟩
  · exact ((valueSetter_json_parse_and_fallback testEnv
      ⟨some Format.json, none, none, false⟩ ⟨some Format.json, none, none, false⟩
      "not json" rfl rfl).2 rfl).1
  · exact ((valueSetter_json_parse_and_fallback testEnv
      ⟨some Format.json, none, none, false⟩ ⟨some Format.json, none, none, false⟩
      "not json" rfl rfl).2 rfl).2
  · exact ((valueSetter_json_parse_and_fallback parsingEnv
      ⟨some Format.json, none, none, false⟩ ⟨some Format.json, none, none, false⟩
      "x" rfl rfl).1 (JSVal.obj [("parsed", JSVal.str "x")]) rfl).1

/-- Counterexample to C1 as stated: with the filter-null option on, a
`null` passed to `writeValue` before the instance exists is not cached —
the pending content keeps its prior value `"old"` instead of the written
value. -/
theorem writeValue_preReady_null_not_cached :
    ((writeValue testEnv
        { fmt := ⟨none, none, none, false⟩, filterNull := true, compareValues := false }
        { content := JSVal.str "old", hasEditor := false, editorContents := JSVal.null }
        JSVal.null).1.content = JSVal.str "old") ∧
    JSVal.str "old" ≠ JSVal.null := by
  refine ⟨rfl, fun h => JSVal.noConfusion h⟩

/-- Claim C1 (amended): before the instance exists `writeValue` performs
no engine call for any value, and caches the value unless the
filter-null option discards a `null`; at the `Ready` transition a truthy
buffered value is written by exactly one engine call carrying the
`silent` source flag, followed immediately by clearing the history
module. -/
theorem writeValue_preReady_buffered (env : QuillEnv) (winp : WriteInputs)
    (st : EditorWriteState) (value content : JSVal)
    (hed : st.hasEditor = false) :
    (writeValue env winp st value).2 = [] ∧
    ((winp.filterNull && value.isNull) = false →
      (writeValue env winp st value).1.content = value) ∧
    (jsTruthy content = true →
      flushBufferedContent env winp.fmt content =
        [(if getFormat winp.fmt.format winp.fmt.configFormat = Format.text then
            EngineOp.setText content (some "silent")
          else
            EngineOp.setContents (quillEditorValueSetter env winp.fmt content) (some "silent")),
         EngineOp.historyClear]) := by
  refine ⟨?_, ?_, ?_⟩
  · by_cases hf : (winp.filterNull && value.isNull) = true
    · simp [writeValue, hf]
    · simp only [Bool.not_eq_true] at hf
      simp [writeValue, hf, hed]
  · intro hf
    simp [writeValue, hf, hed]
  · intro ht
    by_cases hfmt : getFormat winp.fmt.format winp.fmt.configFormat = Format.text
    · simp [flushBufferedContent, ht, hfmt]
    · simp [flushBufferedContent, ht, hfmt]

/-- Witness for the amended C1: a pre-instance write of `"x"` performs
no engine call and caches `"x"`; flushing the buffer under the `text`
format yields one silent `setText` then a history clear. -/
theorem writeValue_preReady_buffered_witness :
    ((writeValue testEnv
        { fmt := ⟨some Format.text, none, none, false⟩, filterNull := false, compareValues := false }
        { content := JSVal.null, hasEditor := false, editorContents := JSVal.null }
        (JSVal.str "x")).2 = []) ∧
    ((writeValue testEnv
        { fmt := ⟨some Format.text, none, none, false⟩, filterNull := false, compareValues := false }
        { content := JSVal.null, hasEditor := false, editorContents := JSVal.null }
        (JSVal.str "x")).1.content = JSVal.str "x") ∧
    (flushBufferedContent testEnv ⟨some Format.text, none, none, false⟩ (JSVal.str "x") =
      [EngineOp.setText (JSVal.str "x") (some "silent"), EngineOp.historyClear]) := by
  have h := writeValue_preReady_buffered testEnv
    { fmt := ⟨some Format.text, none, none, false⟩, filterNull := false, compareValues := false }
    { content := JSVal.null, hasEditor := false, editorContents := JSVal.null }
    (JSVal.str "x") (JSVal.str "x") rfl
  exact ⟨h.1, h.2.1 rfl, h.2.2 rfl⟩

/-- Claim C4: with an existing instance, the validation result carries
`requiredError` exactly when the `required` input is set, the computed
effective text length is falsy, and the native operation list is a
single empty-or-newline insert; and whenever `requiredError` is carried
the overall result is invalid (non-null). -/
theorem validate_requiredError_exactly (inp : ValidateInputs) (text : String)
    (ops : List DeltaOp) :
    hasRequiredError (validate inp true text ops) =
      (inp.required && (computedTextLength inp.trimOnValidation text == 0) &&
        onlyEmptyOperation ops) ∧
    (hasRequiredError (validate inp true text ops) = true →
      validate inp true text ops ≠ none) := by
  constructor
  · simp only [validate, Bool.true_eq_false, if_false]
    split
    · next h => simp only [hasRequiredError, h.2.2]
    · next h => simp only [hasRequiredError]
  · intro h hnone
    rw [hnone] at h
    simp only [hasRequiredError] at h
    exact Bool.false_ne_true h

/-- Witness for C4: `required = true`, `minLength = 0`, text a lone
newline and a single newline-only insert operation — `requiredError` is
reported and the result is invalid. -/
theorem validate_requiredError_exactly_witness :
    hasRequiredError
      (validate ⟨false, some 0, none, true⟩ true "\n" [⟨some (JSVal.str "\n")⟩]) = true ∧
    validate ⟨false, some 0, none, true⟩ true "\n" [⟨some (JSVal.str "\n")⟩] ≠ none := by
  have h := validate_requiredError_exactly ⟨false, some 0, none, true⟩ "\n"
    [⟨some (JSVal.str "\n")⟩]
  have he : hasRequiredError
      (validate ⟨false, some 0, none, true⟩ true "\n" [⟨some (JSVal.str "\n")⟩]) = true := by
    rw [h.1]; decide
  exact ⟨he, h.2 he⟩

/-- The length formula of `validate` agrees with the spec's wording on
every text: trimmed length under trim-on-validation, otherwise raw
length minus one with a lone newline counting as zero. -/
theorem computedTextLength_eq_spec (trimOnValidation : Bool) (text : String) :
    computedTextLength trimOnValidation text = specEffectiveLength trimOnValidation text := by
  unfold computedTextLength specEffectiveLength
  cases trimOnValidation
  · simp only [Bool.false_eq_true, if_false]
    by_cases h1 : text.length = 1 ∧ (jsTrim text).length = 0
    · rw [if_pos h1]
      split
      · rfl
      · rw [h1.1]; norm_num
    · rw [if_neg h1]
      split
      · next h2 =>
        subst h2
        exact absurd ⟨by decide, by decide⟩ h1
      · rfl
  · simp only [if_true]

/-- Claim C5: with an existing instance, `validate` computes the
effective text length exactly as the spec states it, and derives the
min-length and max-length errors from that effective length. -/
theorem validate_length_errors (inp : ValidateInputs) (text : String)
    (ops : List DeltaOp) :
    computedTextLength inp.trimOnValidation text =
      specEffectiveLength inp.trimOnValidation text ∧
    minLengthErrorOf (validate inp true text ops) =
      specMinLengthError inp.minLength (specEffectiveLength inp.trimOnValidation text) ∧
    maxLengthErrorOf (validate inp true text ops) =
      specMaxLengthError inp.maxLength (specEffectiveLength inp.trimOnValidation text) := by
  have hlen := computedTextLength_eq_spec inp.trimOnValidation text
  refine ⟨hlen, ?_, ?_⟩
  · rw [← hlen]
    simp only [validate, specMinLengthError, Bool.true_eq_false, if_false]
    split
    · next h => simp only [minLengthErrorOf, h.1]
    · next h => simp only [minLengthErrorOf]
  · rw [← hlen]
    simp only [validate, specMaxLengthError, Bool.true_eq_false, if_false]
    split
    · next h => simp only [maxLengthErrorOf, h.2.1]
    · next h => simp only [maxLengthErrorOf]

/-- Claim C6: with an existing instance, `setDisabledState` leaves the
host `disabled` attribute present exactly when disabling; disabling
calls the native `disable` and sets the attribute; enabling removes the
attribute and calls the native `enable` unless the read-only input is
active; and a disable followed by an enable without read-only restores
editability with the attribute absent. -/
theorem setDisabledState_contract (ro : Bool) (st : DisabledState) (d : Bool)
    (hed : st.hasEditor = true) :
    ((setDisabledState ro st d).1.attrDisabled = d) ∧
    (d = true →
      (setDisabledState ro st d).2 = [EngineOp.disable, EngineOp.setAttrDisabled] ∧
      (setDisabledState ro st d).1.editorEnabled = false) ∧
    (d = false → ro = false →
      (setDisabledState ro st d).2 = [EngineOp.enable, EngineOp.removeAttrDisabled] ∧
      (setDisabledState ro st d).1.editorEnabled = true) ∧
    (d = false → ro = true →
      (setDisabledState ro st d).2 = [EngineOp.removeAttrDisabled] ∧
      (setDisabledState ro st d).1.editorEnabled = st.editorEnabled) ∧
    (ro = false →
      (setDisabledState ro (setDisabledState ro st true).1 false).1.editorEnabled = true ∧
      (setDisabledState ro (setDisabledState ro st true).1 false).1.attrDisabled = false) := by
  cases d <;> cases ro <;> simp [setDisabledState, hed]

/-- Witness for C6 at a concrete state: instance present, initially
enabled, read-only off; disabling then enabling restores editability
and ends with the attribute absent. -/
theorem setDisabledState_contract_witness :
    ((setDisabledState false ⟨true, true, false, false⟩ true).1.attrDisabled = true) ∧
    ((setDisabledState false ⟨true, true, false, false⟩ true).2 =
      [EngineOp.disable, EngineOp.setAttrDisabled]) ∧
    ((setDisabledState false
        (setDisabledState false ⟨true, true, false, false⟩ true).1 false).1.editorEnabled = true) ∧
    ((setDisabledState false
        (setDisabledState false ⟨true, true, false, false⟩ true).1 false).1.attrDisabled = false) := by
  have h := setDisabledState_contract false ⟨true, true, false, false⟩ true rfl
  exact ⟨h.1, (h.2.1 rfl).1, (h.2.2.2.2 rfl).1, (h.2.2.2.2 rfl).2⟩

/-- Counterexample to C7 as stated: changing the debounce-interval input
to `0` while the instance exists and a listener set built for interval
`100` is active leaves that set untouched — nothing is torn down or
recreated, so the new interval does not apply. -/
theorem debounce_change_to_zero_not_recreated :
    onDebounceTimeChange true (some 0) (some (addQuillEventListeners (some 100))) =
      (some (addQuillEventListeners (some 100)), []) ∧
    addQuillEventListeners (some 100) ≠ addQuillEventListeners (some 0) := by
  exact ⟨rfl, by decide⟩

/-- Claim C7 (amended): changing the debounce-interval input to a truthy
value (a nonzero number) while the instance exists disposes the active
listener set and installs a fresh one built from the new interval —
three subscriptions, with the text-change and editor-change streams
debounced by that interval — leaving exactly one set alive; a change to
zero or to an absent interval leaves the existing set unchanged. -/
theorem debounce_change_recreates_listeners (d : Nat) (cur : List ListenerSub)
    (hd : d ≠ 0) :
    onDebounceTimeChange true (some d) (some cur) =
      (some (addQuillEventListeners (some d)),
        [SubAction.disposeSet, SubAction.createSet (addQuillEventListeners (some d))]) ∧
    addQuillEventListeners (some d) =
      [⟨ListenerEvent.selectionChange, none⟩,
       ⟨ListenerEvent.textChange, some d⟩,
       ⟨ListenerEvent.editorChange, some d⟩] ∧
    (∀ d0, onDebounceTimeChange true d0 (some cur) ≠ (some cur, []) →
      debounceTruthy d0 = true) := by
  refine ⟨?_, rfl, ?_⟩
  · have ht : debounceTruthy (some d) = true := by
      simp [debounceTruthy, hd]
    simp [onDebounceTimeChange, ht, addListenersStep]
  · intro d0 hne
    by_cases ht : debounceTruthy d0 = true
    · exact ht
    · exact absurd (by simp [onDebounceTimeChange, ht]) hne

/-- Witness for the amended C7: an active set built for interval 100,
interval changed to 250 — the old set is disposed and a fresh
three-subscription set debounced at 250 is installed. -/
theorem debounce_change_recreates_listeners_witness :
    onDebounceTimeChange true (some 250) (some (addQuillEventListeners (some 100))) =
      (some (addQuillEventListeners (some 250)),
        [SubAction.disposeSet, SubAction.createSet (addQuillEventListeners (some 250))]) ∧
    addQuillEventListeners (some 250) =
      [⟨ListenerEvent.selectionChange, none⟩,
       ⟨ListenerEvent.textChange, some 250⟩,
       ⟨ListenerEvent.editorChange, some 250⟩] :=
  ⟨(debounce_change_recreates_listeners 250 (addQuillEventListeners (some 100))
      (by decide)).1,
   (debounce_change_recreates_listeners 250 (addQuillEventListeners (some 100))
      (by decide)).2.1⟩

/-- Counterexample to C9 as stated: a new external content value that is
the empty string, delivered while the view instance exists, is not
written — the component performs no engine call. -/
theorem viewContentChange_falsy_ignored :
    viewContentChange testEnv ⟨none, none, none, false⟩ true (JSVal.str "") = [] ∧
    jsTruthy (JSVal.str "") = false := by
  exact ⟨rfl, by decide⟩

/-- Claim C9 (amended): a truthy new content value delivered to the view
component after its instance exists is encoded through the format
adapter and written by exactly one engine call, and a truthy buffered
value is applied the same way at instance creation; a falsy new value,
and any value delivered before the instance exists, produce no engine
call. -/
theorem view_content_written (env : QuillEnv) (inp : FormatInputs) (content : JSVal)
    (ht : jsTruthy content = true) :
    viewContentChange env inp true content = quillViewValueSetter env inp content ∧
    viewApplyInitialContent env inp content = quillViewValueSetter env inp content ∧
    (quillViewValueSetter env inp content).length = 1 ∧
    (∀ v, viewContentChange env inp false v = []) ∧
    (∀ v, jsTruthy v = false → viewContentChange env inp true v = []) := by
  refine ⟨?_, ?_, ?_, ?_, ?_⟩
  · simp [viewContentChange, ht]
  · simp [viewApplyInitialContent, ht]
  · unfold quillViewValueSetter
    cases getFormat inp.format inp.configFormat
    · rfl
    · rfl
    · rfl
    · cases env.jsonParse content
      · rfl
      · rfl
  · intro v
    simp [viewContentChange]
  · intro v hv
    simp [viewContentChange, hv]

/-- Witness for the amended C9: a nonempty text-format value delivered
after instance creation is written via one `setText` engine call. -/
theorem view_content_written_witness :
    viewContentChange testEnv ⟨some Format.text, none, none, false⟩ true (JSVal.str "hi") =
      quillViewValueSetter testEnv ⟨some Format.text, none, none, false⟩ (JSVal.str "hi") ∧
    quillViewValueSetter testEnv ⟨some Format.text, none, none, false⟩ (JSVal.str "hi") =
      [EngineOp.setText (JSVal.str "hi") none] :=
  ⟨(view_content_written testEnv ⟨some Format.text, none, none, false⟩
      (JSVal.str "hi") rfl).1, rfl⟩

/-- Claim C10: when `selectionChangeHandler` is not suppressed by its
no-listener early return, the blur output fires exactly when the new
range is null, the focus output fires exactly when the new range is
non-null and the old range was null, the selection-changed output fires
in every such case, and blur and focus are never both emitted for one
event. -/
theorem selectionChange_emissions (inp : SelInputs) (obs : SelObservers)
    (hasOnModelTouched : Bool) (range oldRange : Option Range) (source : String)
    (h : obs.blurObserved = true ∨ obs.focusObserved = true ∨
      obs.selectionObserved = true ∨
      shouldTriggerTouch inp hasOnModelTouched range source = true) :
    (selectionChangeHandler inp obs hasOnModelTouched range oldRange source).blur =
      range.isNone ∧
    (selectionChangeHandler inp obs hasOnModelTouched range oldRange source).focus =
      (range.isSome && oldRange.isNone) ∧
    (selectionChangeHandler inp obs hasOnModelTouched range oldRange source).selectionChanged =
      true ∧
    ¬((selectionChangeHandler inp obs hasOnModelTouched range oldRange source).blur = true ∧
      (selectionChangeHandler inp obs hasOnModelTouched range oldRange source).focus = true) := by
  have hcond : ¬(obs.blurObserved = false ∧ obs.focusObserved = false ∧
      obs.selectionObserved = false ∧
      shouldTriggerTouch inp hasOnModelTouched range source = false) := by
    rintro ⟨h1, h2, h3, h4⟩
    rcases h with h | h | h | h
    · rw [h1] at h; exact Bool.false_ne_true h
    · rw [h2] at h; exact Bool.false_ne_true h
    · rw [h3] at h; exact Bool.false_ne_true h
    · rw [h4] at h; exact Bool.false_ne_true h
  unfold selectionChangeHandler
  rw [if_neg hcond]
  refine ⟨rfl, rfl, rfl, ?_⟩
  rintro ⟨hb, hf⟩
  cases range with
  | none => simp at hf
  | some r => simp at hb

/-- Witness for C10: selection-changed observed, range becomes null from
an existing range — blur and selection-changed fire, focus does not. -/
theorem selectionChange_emissions_witness :
    (selectionChangeHandler ⟨none, none⟩ ⟨false, false, true⟩ false none
      (some ⟨0, 0⟩) "user").blur = true ∧
    (selectionChangeHandler ⟨none, none⟩ ⟨false, false, true⟩ false none
      (some ⟨0, 0⟩) "user").focus = false ∧
    (selectionChangeHandler ⟨none, none⟩ ⟨false, false, true⟩ false none
      (some ⟨0, 0⟩) "user").selectionChanged = true := by
  have h := selectionChange_emissions ⟨none, none⟩ ⟨false, false, true⟩ false none
    (some ⟨0, 0⟩) "user" (Or.inr (Or.inr (Or.inl rfl)))
  exact ⟨h.1, h.2.1, h.2.2.1⟩

end NgxQuill
